import Mathlib

/-!
A shallow embedding of the in-memory castle/ruler stores of the
entente-examples repository, with the query/relation layer, the REST
validation layer and the GraphQL resolver boundary, and proofs about the
fixture reset protocol, the mutation operations and the relational queries.

JavaScript records are value structures here; because the ruler store
mutates ruler objects in place (`addCastleToRuler` / `removeCastleFromRuler`
push into / splice out of `ruler.castleIds`) while `setRulers` and
`resetRulers` only shallow-copy the array of object references, the ruler
store is embedded with an explicit object heap: `heap` holds the ruler
objects, and the current and source collections are lists of heap
addresses, exactly as the JS arrays are lists of object references.
-/

namespace Entente

/-! ## Castle service data model (castle-service/src/db.ts) -/

structure Castle where
  id : String
  name : String
  region : String
  yearBuilt : Int
  description : String
deriving DecidableEq

structure CreateCastleRequest where
  name : String
  region : String
  yearBuilt : Int
  description : Option String
deriving DecidableEq

/-- The castle module state: `let castles / let sourceCastles`.
Castle records are never mutated in place by any operation, so plain
value lists are a faithful embedding. -/
structure CastleDB where
  castles : List Castle
  sourceCastles : List Castle
deriving DecidableEq

def getAllCastles (db : CastleDB) : List Castle :=
  db.castles

def getCastleById (db : CastleDB) (id : String) : Option Castle :=
  db.castles.find? (fun c => c.id == id)

/-- `createCastle`; `generateId()` is time/random based, so the fresh id is
an explicit argument.  JS `castleData.description || "A beautiful castle"`
applies the placeholder when the field is absent or the empty string
(both falsy). -/
def createCastle (db : CastleDB) (newId : String) (req : CreateCastleRequest) :
    Castle × CastleDB :=
  let desc := match req.description with
    | none => "A beautiful castle"
    | some s => if s = "" then "A beautiful castle" else s
  let newCastle : Castle :=
    { id := newId, name := req.name, region := req.region
      yearBuilt := req.yearBuilt, description := desc }
  (newCastle, { db with castles := db.castles ++ [newCastle] })

/-- `deleteCastle`: `findIndex` + `splice(index, 1)` removes the first
matching record; structural recursion over the list mirrors that. -/
def removeFirstCastle (id : String) : List Castle → Option (List Castle)
  | [] => none
  | c :: rest =>
    if c.id == id then some rest
    else (removeFirstCastle id rest).map (fun l => c :: l)

def deleteCastle (db : CastleDB) (id : String) : Bool × CastleDB :=
  match removeFirstCastle id db.castles with
  | none => (false, db)
  | some rest => (true, { db with castles := rest })

def setCastles (_db : CastleDB) (data : List Castle) : CastleDB :=
  { castles := data, sourceCastles := data }

def resetCastles (db : CastleDB) : CastleDB :=
  { db with castles := db.sourceCastles }

/-! ## Ruler store data model (castle-graphql/src/db.ts) -/

structure Ruler where
  id : String
  name : String
  title : String
  reignStart : Int
  reignEnd : Option Int
  house : String
  castleIds : List String
  description : Option String
  achievements : List String
deriving DecidableEq

structure CreateRulerRequest where
  name : String
  title : String
  reignStart : Int
  reignEnd : Option Int
  house : String
  castleIds : Option (List String)
  description : Option String
  achievements : Option (List String)
deriving DecidableEq

structure UpdateRulerRequest where
  name : Option String
  title : Option String
  reignStart : Option Int
  reignEnd : Option Int
  house : Option String
  description : Option String
  achievements : Option (List String)
deriving DecidableEq

/-- The ruler module state.  `heap` is the object store (a heap address is
an index into it); `rulers` and `sourceRulers` are the JS arrays of object
references.  `setRulers` / `resetRulers` copy only the reference arrays, so
both arrays can point at the same heap objects — exactly the sharing the
JS shallow copies produce. -/
structure RulerDB where
  heap : List Ruler
  rulers : List Nat
  sourceRulers : List Nat
deriving DecidableEq

def emptyRulerDB : RulerDB := ⟨[], [], []⟩

def getAllRulers (db : RulerDB) : List Ruler :=
  db.rulers.filterMap (fun a => db.heap[a]?)

/-- The records currently reachable through the source (fixture) collection. -/
def sourceRulerRecords (db : RulerDB) : List Ruler :=
  db.sourceRulers.filterMap (fun a => db.heap[a]?)

/-- `rulers.find(r => r.id === id)`, returning the object reference (the
address) together with the record it holds. -/
def findAddr (heap : List Ruler) (id : String) : List Nat → Option (Nat × Ruler)
  | [] => none
  | a :: rest =>
    match heap[a]? with
    | some r => if r.id == id then some (a, r) else findAddr heap id rest
    | none => findAddr heap id rest

def getRulerById (db : RulerDB) (id : String) : Option Ruler :=
  (findAddr db.heap id db.rulers).map (fun p => p.2)

def getRulersByCastle (db : RulerDB) (castleId : String) : List Ruler :=
  (getAllRulers db).filter (fun r => r.castleIds.contains castleId)

/-- `getRulersByPeriod`: JS computes
`rulerEnd = ruler.reignEnd || new Date().getFullYear()`, so both an absent
`reignEnd` and the falsy year `0` become the caller's current year `now`. -/
def getRulersByPeriod (db : RulerDB) (now startYear endYear : Int) : List Ruler :=
  (getAllRulers db).filter (fun r =>
    let rulerEnd : Int := match r.reignEnd with
      | some e => if e = 0 then now else e
      | none => now
    decide (r.reignStart ≤ endYear ∧ rulerEnd ≥ startYear))

/-- `createRuler`: `castleIds || []` and `achievements || []` replace only
an absent array (any array, even empty, is truthy), while
`description || ''` replaces both an absent and an empty string (both
falsy) with `''`. -/
def createRuler (db : RulerDB) (newId : String) (req : CreateRulerRequest) :
    Ruler × RulerDB :=
  let newRuler : Ruler :=
    { id := newId, name := req.name, title := req.title
      reignStart := req.reignStart, reignEnd := req.reignEnd
      house := req.house
      castleIds := req.castleIds.getD []
      description := some (req.description.getD "")
      achievements := req.achievements.getD [] }
  (newRuler, { db with heap := db.heap ++ [newRuler]
                       rulers := db.rulers ++ [db.heap.length] })

/-- JS `??` on an optional-typed field: the update value when provided,
otherwise the existing one. -/
def coalesce (u : Option α) (e : Option α) : Option α :=
  match u with
  | some v => some v
  | none => e

/-- The merged record `updatedRuler` of `updateRuler`: every provided field
replaces the existing one via `??`, `castleIds` is copied from the existing
record unconditionally. -/
def applyUpdate (existing : Ruler) (u : UpdateRulerRequest) : Ruler :=
  { id := existing.id
    name := u.name.getD existing.name
    title := u.title.getD existing.title
    reignStart := u.reignStart.getD existing.reignStart
    reignEnd := coalesce u.reignEnd existing.reignEnd
    house := u.house.getD existing.house
    castleIds := existing.castleIds
    description := coalesce u.description existing.description
    achievements := u.achievements.getD existing.achievements }

/-- `rulers.findIndex(r => r.id === id)` followed by
`rulers[index] = updatedRuler`: walk the reference array, and at the first
match replace the reference with the fresh address `newAddr`, returning the
new array and the existing record. -/
def replaceFirstRuler (heap : List Ruler) (id : String) (newAddr : Nat) :
    List Nat → Option (List Nat × Ruler)
  | [] => none
  | a :: rest =>
    match heap[a]? with
    | some r =>
      if r.id == id then some (newAddr :: rest, r)
      else (replaceFirstRuler heap id newAddr rest).map (fun p => (a :: p.1, p.2))
    | none => (replaceFirstRuler heap id newAddr rest).map (fun p => (a :: p.1, p.2))

/-- `updateRuler` allocates a fresh object for the merged record and stores
its reference in place of the old one; it returns `null` (here `none`)
when no record matches. -/
def updateRuler (db : RulerDB) (id : String) (u : UpdateRulerRequest) :
    Option Ruler × RulerDB :=
  match replaceFirstRuler db.heap id db.heap.length db.rulers with
  | none => (none, db)
  | some (rulers', existing) =>
    let updated := applyUpdate existing u
    (some updated,
     { heap := db.heap ++ [updated], rulers := rulers'
       sourceRulers := db.sourceRulers })

/-- `deleteRuler`: `findIndex` + `splice(index, 1)` on the reference array. -/
def removeFirstRuler (heap : List Ruler) (id : String) :
    List Nat → Option (List Nat)
  | [] => none
  | a :: rest =>
    match heap[a]? with
    | some r =>
      if r.id == id then some rest
      else (removeFirstRuler heap id rest).map (fun l => a :: l)
    | none => (removeFirstRuler heap id rest).map (fun l => a :: l)

def deleteRuler (db : RulerDB) (id : String) : Bool × RulerDB :=
  match removeFirstRuler db.heap id db.rulers with
  | none => (false, db)
  | some rest => (true, { db with rulers := rest })

/-- `addCastleToRuler` mutates the found ruler object in place
(`ruler.castleIds.push(castleId)` unless already present): the heap cell at
the object's address is overwritten, the reference arrays are untouched. -/
def addCastleToRuler (db : RulerDB) (rulerId castleId : String) :
    Option Ruler × RulerDB :=
  match findAddr db.heap rulerId db.rulers with
  | none => (none, db)
  | some (a, r) =>
    if r.castleIds.contains castleId then (some r, db)
    else
      let r' := { r with castleIds := r.castleIds ++ [castleId] }
      (some r', { db with heap := db.heap.set a r' })

/-- `removeCastleFromRuler`: `indexOf` + `splice(index, 1)` removes the
first occurrence in place; a missing association is a no-op. -/
def removeCastleFromRuler (db : RulerDB) (rulerId castleId : String) :
    Option Ruler × RulerDB :=
  match findAddr db.heap rulerId db.rulers with
  | none => (none, db)
  | some (a, r) =>
    if r.castleIds.contains castleId then
      let r' := { r with castleIds := r.castleIds.erase castleId }
      (some r', { db with heap := db.heap.set a r' })
    else (some r, db)

/-- `setRulers(data)`: `sourceRulers = [...data]; rulers = [...data]` — the
caller's records are installed as fresh heap objects and BOTH reference
arrays point at those same objects. -/
def setRulers (db : RulerDB) (data : List Ruler) : RulerDB :=
  { heap := db.heap ++ data
    rulers := (List.range data.length).map (fun i => i + db.heap.length)
    sourceRulers := (List.range data.length).map (fun i => i + db.heap.length) }

/-- `resetRulers()`: `rulers = [...sourceRulers]` — only the reference
array is copied, the objects stay shared. -/
def resetRulers (db : RulerDB) : RulerDB :=
  { db with rulers := db.sourceRulers }

/-! ## The default ruler dataset
(castle-client/test/graphql-mock-server.ts, `let rulers = [...]`). -/

def louisXIV : Ruler :=
  { id := "ruler-louis-xiv-001", name := "Louis XIV", title := "The Sun King"
    reignStart := 1643, reignEnd := some 1715, house := "Bourbon"
    castleIds := ["550e8400-e29b-41d4-a716-446655440000"]
    description := some "Known as the Sun King, Louis XIV was a monarch of the House of Bourbon."
    achievements := ["Built Palace of Versailles", "Longest reigning monarch in European history"] }

def louisXIII : Ruler :=
  { id := "ruler-louis-xiii-001", name := "Louis XIII", title := "The Just"
    reignStart := 1610, reignEnd := some 1643, house := "Bourbon"
    castleIds := ["550e8400-e29b-41d4-a716-446655440001"]
    description := some "Father of Louis XIV and king during the rise of absolute monarchy."
    achievements := ["Strengthened royal authority", "Supported Cardinal Richelieu"] }

def henryIV : Ruler :=
  { id := "ruler-henry-iv-001", name := "Henry IV", title := "The Good King Henry"
    reignStart := 1589, reignEnd := some 1610, house := "Bourbon"
    castleIds := ["550e8400-e29b-41d4-a716-446655440002"]
    description := some "First Bourbon king of France, ended the French Wars of Religion."
    achievements := ["Edict of Nantes", "Economic recovery of France"] }

def defaultRulers : List Ruler := [louisXIV, louisXIII, henryIV]

/-- A ruler store freshly loaded with the default dataset. -/
def defaultRulerDB : RulerDB := setRulers emptyRulerDB defaultRulers

/-! ## Client query/relation layer (castle-client/src/castle-api.ts) -/

/-- The client's castle shape (no description field). -/
structure ClientCastle where
  id : String
  name : String
  region : String
  yearBuilt : Int
deriving DecidableEq

structure CastleWithRulers where
  id : String
  name : String
  region : String
  yearBuilt : Int
  rulers : List Ruler
deriving DecidableEq

/-- The loop body of `getAllCastlesWithRulers`: try the per-castle ruler
sub-query; on failure keep the castle with an empty `rulers` list. -/
def joinCastle (fetchRulersByCastle : String → Except String (List Ruler))
    (c : ClientCastle) : CastleWithRulers :=
  match fetchRulersByCastle c.id with
  | Except.ok rs =>
    { id := c.id, name := c.name, region := c.region
      yearBuilt := c.yearBuilt, rulers := rs }
  | Except.error _ =>
    { id := c.id, name := c.name, region := c.region
      yearBuilt := c.yearBuilt, rulers := [] }

/-- `getAllCastlesWithRulers`: throws when `rulersApiUrl` is not
configured; propagates a failure of `getAllCastles`; then, castle by
castle, a failing `getRulersByCastle` sub-query is caught and the castle
kept with an empty `rulers` list. -/
def getAllCastlesWithRulers (rulersApiUrl : Option String)
    (fetchAllCastles : Except String (List ClientCastle))
    (fetchRulersByCastle : String → Except String (List Ruler)) :
    Except String (List CastleWithRulers) :=
  match rulersApiUrl with
  | none => Except.error "Rulers API URL not configured. Cannot fetch ruler data."
  | some _ =>
    match fetchAllCastles with
    | Except.error e => Except.error e
    | Except.ok castles => Except.ok (castles.map (joinCastle fetchRulersByCastle))

/-- The comparison key of `getOldestCastles`'s comparator
`(a, b) => a.yearBuilt - b.yearBuilt`. -/
def yearLe (a b : ClientCastle) : Prop := a.yearBuilt ≤ b.yearBuilt

instance : DecidableRel yearLe :=
  fun a b => inferInstanceAs (Decidable (a.yearBuilt ≤ b.yearBuilt))

instance : IsTotal ClientCastle yearLe :=
  ⟨fun a b => le_total a.yearBuilt b.yearBuilt⟩

instance : IsTrans ClientCastle yearLe :=
  ⟨fun _ _ _ h1 h2 => le_trans h1 h2⟩

/-- `allCastles.sort((a, b) => a.yearBuilt - b.yearBuilt)`:
`Array.prototype.sort` is a stable sort (ES2019), which insertion sort
realizes. -/
def sortByYearBuilt (l : List ClientCastle) : List ClientCastle :=
  List.insertionSort yearLe l

/-- `getOldestCastles(limit)`: stable ascending sort, then `slice(0, limit)`. -/
def getOldestCastles (castles : List ClientCastle) (limit : Nat) : List ClientCastle :=
  (sortByYearBuilt castles).take limit

/-! ## REST boundary (castle-service/src/index.ts) -/

/-- The structured error object of the REST layer. -/
structure ApiError where
  error : String
  message : String
deriving DecidableEq

/-- The incoming JSON body of `POST /castles`, before validation
(`Partial<CreateCastleRequest>`). -/
structure CastlePayload where
  name : Option String
  region : Option String
  yearBuilt : Option Int
  description : Option String
deriving DecidableEq

/-- The `validator("json", ...)` of `app.post("/castles")`: JS falsiness
makes an absent or empty `name`/`region` and an absent or zero `yearBuilt`
fail the required-field checks; then the 1000–2100 range check. -/
def validateCreateCastle (p : CastlePayload) : Except ApiError CreateCastleRequest :=
  match p.name with
  | none => Except.error ⟨"validation_error", "Name is required and must be a string"⟩
  | some name =>
    if name = "" then
      Except.error ⟨"validation_error", "Name is required and must be a string"⟩
    else match p.region with
    | none => Except.error ⟨"validation_error", "Region is required and must be a string"⟩
    | some region =>
      if region = "" then
        Except.error ⟨"validation_error", "Region is required and must be a string"⟩
      else match p.yearBuilt with
      | none => Except.error ⟨"validation_error", "Year built is required and must be a number"⟩
      | some y =>
        if y = 0 then
          Except.error ⟨"validation_error", "Year built is required and must be a number"⟩
        else if y < 1000 ∨ y > 2100 then
          Except.error ⟨"validation_error", "Year built must be between 1000 and 2100"⟩
        else Except.ok ⟨name, region, y, p.description⟩

/-- The `POST /castles` route: the validator runs first; only a validated
request reaches `createCastle`. -/
def postCastles (db : CastleDB) (newId : String) (p : CastlePayload) :
    Except ApiError Castle × CastleDB :=
  match validateCreateCastle p with
  | Except.error e => (Except.error e, db)
  | Except.ok req =>
    let (c, db') := createCastle db newId req
    (Except.ok c, db')

/-- The `GET /castles/:id` route: absence from the store becomes a
`not_found` error object at this boundary. -/
def restGetCastle (db : CastleDB) (id : String) : Except ApiError Castle :=
  match getCastleById db id with
  | none => Except.error ⟨"not_found", "Castle not found"⟩
  | some c => Except.ok c

/-! ## GraphQL resolver boundary (castle-graphql/src/resolvers.ts) -/

/-- The `getRuler` query resolver: absence from the store becomes a raised
field error at this boundary. -/
def resolveGetRuler (db : RulerDB) (id : String) : Except String Ruler :=
  match getRulerById db id with
  | none => Except.error ("Ruler with ID " ++ id ++ " not found")
  | some r => Except.ok r

/-! ## Operation sequences over the stores -/

/-- A castle-store mutation (the store has create and delete). -/
inductive COp where
  | create (newId : String) (req : CreateCastleRequest)
  | delete (id : String)

def applyCOp (db : CastleDB) : COp → CastleDB
  | COp.create newId req => (createCastle db newId req).2
  | COp.delete id => (deleteCastle db id).2

def applyCOps (db : CastleDB) (ops : List COp) : CastleDB :=
  ops.foldl applyCOp db

/-- A ruler-store mutation. -/
inductive ROp where
  | create (newId : String) (req : CreateRulerRequest)
  | update (id : String) (u : UpdateRulerRequest)
  | delete (id : String)
  | addCastle (rulerId castleId : String)
  | removeCastle (rulerId castleId : String)

def applyROp (db : RulerDB) : ROp → RulerDB
  | ROp.create newId req => (createRuler db newId req).2
  | ROp.update id u => (updateRuler db id u).2
  | ROp.delete id => (deleteRuler db id).2
  | ROp.addCastle rid cid => (addCastleToRuler db rid cid).2
  | ROp.removeCastle rid cid => (removeCastleFromRuler db rid cid).2

def applyROps (db : RulerDB) (ops : List ROp) : RulerDB :=
  ops.foldl applyROp db

/-- The three mutations that allocate or drop object references without
writing through an existing reference (create, update, delete); the two
relation mutations write the found object in place instead. -/
def ROp.isPlain : ROp → Bool
  | ROp.create _ _ => true
  | ROp.update _ _ => true
  | ROp.delete _ => true
  | ROp.addCastle _ _ => false
  | ROp.removeCastle _ _ => false

/-! ## Lemmas about the sorting of `getOldestCastles` -/

lemma filter_orderedInsert_year (k : Int) (c : ClientCastle) (l : List ClientCastle) :
    (List.orderedInsert yearLe c l).filter (fun x => decide (x.yearBuilt = k)) =
      if c.yearBuilt = k then
        c :: l.filter (fun x => decide (x.yearBuilt = k))
      else l.filter (fun x => decide (x.yearBuilt = k)) := by
  induction l with
  | nil =>
    by_cases hc : c.yearBuilt = k <;> simp [List.orderedInsert, hc]
  | cons b rest ih =>
    by_cases hle : yearLe c b
    · by_cases hc : c.yearBuilt = k <;>
        simp [List.orderedInsert, hle, List.filter_cons, hc]
    · have hlt : b.yearBuilt < c.yearBuilt := by
        simpa [yearLe, not_le] using hle
      by_cases hb : b.yearBuilt = k
      · have hc : ¬c.yearBuilt = k := by omega
        simp [List.orderedInsert, hle, List.filter_cons, hb, hc, ih]
      · by_cases hc : c.yearBuilt = k <;>
          simp [List.orderedInsert, hle, List.filter_cons, hb, hc, ih]

lemma filter_sortByYearBuilt (k : Int) (l : List ClientCastle) :
    (sortByYearBuilt l).filter (fun x => decide (x.yearBuilt = k)) =
      l.filter (fun x => decide (x.yearBuilt = k)) := by
  induction l with
  | nil => rfl
  | cons c rest ih =>
    simp only [sortByYearBuilt, List.insertionSort] at ih ⊢
    rw [filter_orderedInsert_year]
    by_cases hc : c.yearBuilt = k <;> simp [hc, ih, List.filter_cons]

/-! ## Lemmas about the castle-creation validator -/

lemma validateCreateCastle_error_kind (p : CastlePayload) (e : ApiError)
    (h : validateCreateCastle p = Except.error e) : e.error = "validation_error" := by
  unfold validateCreateCastle at h
  repeat' split at h
  all_goals try exact Except.noConfusion h
  all_goals injection h with h2
  all_goals rw [← h2]

lemma validateCreateCastle_ok_year (p : CastlePayload) (req : CreateCastleRequest)
    (h : validateCreateCastle p = Except.ok req) :
    p.yearBuilt = some req.yearBuilt ∧ 1000 ≤ req.yearBuilt ∧ req.yearBuilt ≤ 2100 := by
  unfold validateCreateCastle at h
  repeat' split at h
  all_goals try exact Except.noConfusion h
  all_goals injection h with h2
  subst h2
  simp_all

/-! ## Lemmas about lookups of an absent identifier -/

lemma findAddr_eq_none (heap : List Ruler) (id : String) (l : List Nat)
    (h : ∀ r ∈ l.filterMap (fun a => heap[a]?), r.id ≠ id) :
    findAddr heap id l = none := by
  induction l with
  | nil => rfl
  | cons a rest ih =>
    rw [List.filterMap_cons] at h
    cases ha : heap[a]? with
    | none =>
      rw [ha] at h
      simpa [findAddr, ha] using ih h
    | some r =>
      rw [ha] at h
      have hne : (r.id == id) = false :=
        beq_eq_false_iff_ne.mpr (h r (List.mem_cons_self r _))
      have hrest := ih (fun r' hr' => h r' (List.mem_cons_of_mem _ hr'))
      simp [findAddr, ha, hne, hrest]

lemma replaceFirstRuler_eq_none (heap : List Ruler) (id : String) (n : Nat)
    (l : List Nat) (h : ∀ r ∈ l.filterMap (fun a => heap[a]?), r.id ≠ id) :
    replaceFirstRuler heap id n l = none := by
  induction l with
  | nil => rfl
  | cons a rest ih =>
    rw [List.filterMap_cons] at h
    cases ha : heap[a]? with
    | none =>
      rw [ha] at h
      simp [replaceFirstRuler, ha, ih h]
    | some r =>
      rw [ha] at h
      have hne : (r.id == id) = false :=
        beq_eq_false_iff_ne.mpr (h r (List.mem_cons_self r _))
      simp [replaceFirstRuler, ha, hne,
        ih (fun r' hr' => h r' (List.mem_cons_of_mem _ hr'))]

lemma removeFirstRuler_eq_none (heap : List Ruler) (id : String) (l : List Nat)
    (h : ∀ r ∈ l.filterMap (fun a => heap[a]?), r.id ≠ id) :
    removeFirstRuler heap id l = none := by
  induction l with
  | nil => rfl
  | cons a rest ih =>
    rw [List.filterMap_cons] at h
    cases ha : heap[a]? with
    | none =>
      rw [ha] at h
      simp [removeFirstRuler, ha, ih h]
    | some r =>
      rw [ha] at h
      have hne : (r.id == id) = false :=
        beq_eq_false_iff_ne.mpr (h r (List.mem_cons_self r _))
      simp [removeFirstRuler, ha, hne,
        ih (fun r' hr' => h r' (List.mem_cons_of_mem _ hr'))]

lemma removeFirstCastle_eq_none (id : String) (l : List Castle)
    (h : ∀ c ∈ l, c.id ≠ id) : removeFirstCastle id l = none := by
  induction l with
  | nil => rfl
  | cons c rest ih =>
    have hne : (c.id == id) = false :=
      beq_eq_false_iff_ne.mpr (h c (List.mem_cons_self c _))
    simp [removeFirstCastle, hne,
      ih (fun c' hc' => h c' (List.mem_cons_of_mem _ hc'))]

/-! ## Lemmas about successful lookups and update -/

lemma findAddr_sound (heap : List Ruler) (id : String) (l : List Nat)
    (a : Nat) (r : Ruler) (h : findAddr heap id l = some (a, r)) :
    heap[a]? = some r ∧ (r.id == id) = true := by
  induction l with
  | nil => exact absurd h (by simp [findAddr])
  | cons b rest ih =>
    cases hb : heap[b]? with
    | none =>
      simp only [findAddr, hb] at h
      exact ih h
    | some s =>
      simp only [findAddr, hb] at h
      by_cases hs : (s.id == id) = true
      · rw [if_pos hs] at h
        injection h with h2
        have hba : b = a := congrArg Prod.fst h2
        have hsr : s = r := congrArg Prod.snd h2
        subst hba; subst hsr
        exact ⟨hb, hs⟩
      · rw [if_neg hs] at h
        exact ih h

lemma findAddr_replaceFirst (heap : List Ruler) (id : String) (n : Nat)
    (l : List Nat) (a : Nat) (r : Ruler) (h : findAddr heap id l = some (a, r)) :
    ∃ l', replaceFirstRuler heap id n l = some (l', r) := by
  induction l with
  | nil => exact absurd h (by simp [findAddr])
  | cons b rest ih =>
    cases hb : heap[b]? with
    | none =>
      simp only [findAddr, hb] at h
      rcases ih h with ⟨l', hl'⟩
      exact ⟨b :: l', by simp [replaceFirstRuler, hb, hl']⟩
    | some s =>
      simp only [findAddr, hb] at h
      by_cases hs : (s.id == id) = true
      · rw [if_pos hs] at h
        injection h with h2
        have hsr : s = r := congrArg Prod.snd h2
        subst hsr
        exact ⟨n :: rest, by simp [replaceFirstRuler, hb, hs]⟩
      · rw [if_neg hs] at h
        rcases ih h with ⟨l', hl'⟩
        exact ⟨b :: l', by simp [replaceFirstRuler, hb, hs, hl']⟩

lemma findAddr_after_replace (heap : List Ruler) (id : String) (l l' : List Nat)
    (existing updated : Ruler)
    (hup : replaceFirstRuler heap id heap.length l = some (l', existing))
    (hid : (updated.id == id) = true) :
    findAddr (heap ++ [updated]) id l' = some (heap.length, updated) := by
  induction l generalizing l' with
  | nil => exact absurd hup (by simp [replaceFirstRuler])
  | cons b rest ih =>
    cases hb : heap[b]? with
    | some s =>
      simp only [replaceFirstRuler, hb] at hup
      by_cases hs : (s.id == id) = true
      · rw [if_pos hs] at hup
        injection hup with h2
        have hl' : heap.length :: rest = l' := congrArg Prod.fst h2
        subst hl'
        have hb2 : (heap ++ [updated])[heap.length]? = some updated :=
          List.getElem?_concat_length _ _
        simp [findAddr, hb2, hid]
      · rw [if_neg hs] at hup
        rcases hrec : replaceFirstRuler heap id heap.length rest with _ | pair
        · rw [hrec] at hup; exact absurd hup (by simp)
        · rw [hrec] at hup
          simp only [Option.map_some'] at hup
          injection hup with h2
          have hl' : b :: pair.1 = l' := congrArg Prod.fst h2
          have hex : pair.2 = existing := congrArg Prod.snd h2
          subst hl'
          rcases List.getElem?_eq_some.mp hb with ⟨hlt, _⟩
          have happ : (heap ++ [updated])[b]? = heap[b]? :=
            List.getElem?_append_left hlt
          have hrest := ih pair.1 (by rw [hrec, ← hex])
          simp [findAddr, happ, hb, hs, hrest]
    | none =>
      simp only [replaceFirstRuler, hb] at hup
      rcases hrec : replaceFirstRuler heap id heap.length rest with _ | pair
      · rw [hrec] at hup; exact absurd hup (by simp)
      · rw [hrec] at hup
        simp only [Option.map_some'] at hup
        injection hup with h2
        have hl' : b :: pair.1 = l' := congrArg Prod.fst h2
        have hex : pair.2 = existing := congrArg Prod.snd h2
        subst hl'
        have hge : heap.length ≤ b := List.getElem?_eq_none_iff.mp hb
        have hrest := ih pair.1 (by rw [hrec, ← hex])
        by_cases hbe : b = heap.length
        · have hb2 : (heap ++ [updated])[b]? = some updated := by
            rw [hbe]; exact List.getElem?_concat_length _ _
          simp [findAddr, hb2, hid, hbe]
        · have hb2 : (heap ++ [updated])[b]? = none := by
            rw [List.getElem?_append_right hge]
            refine List.getElem?_eq_none_iff.mpr ?_
            simp only [List.length_singleton]
            omega
          simp [findAddr, hb2, hrest]

/-! ## Claim theorems -/

/-- C6: every store-level operation on an identifier absent from the
current collection returns an explicit absent-value signal — `none` for
`getById`, `update`, `addCastleToRuler` and `removeCastleFromRuler`,
`false` for `delete` — and leaves the store unchanged; only the REST /
GraphQL boundary layer turns that absence into a raised error
(`not_found` / a GraphQL field error). -/
theorem absent_id_store_signals (db : RulerDB) (cdb : CastleDB)
    (id cid xid : String) (u : UpdateRulerRequest)
    (hr : ∀ r ∈ getAllRulers db, r.id ≠ id)
    (hc : ∀ c ∈ getAllCastles cdb, c.id ≠ xid) :
    getRulerById db id = none ∧
    updateRuler db id u = (none, db) ∧
    deleteRuler db id = (false, db) ∧
    addCastleToRuler db id cid = (none, db) ∧
    removeCastleFromRuler db id cid = (none, db) ∧
    getCastleById cdb xid = none ∧
    deleteCastle cdb xid = (false, cdb) ∧
    resolveGetRuler db id = Except.error ("Ruler with ID " ++ id ++ " not found") ∧
    restGetCastle cdb xid = Except.error ⟨"not_found", "Castle not found"⟩ := by
  have hfind : findAddr db.heap id db.rulers = none := findAddr_eq_none _ _ _ hr
  have hrep : replaceFirstRuler db.heap id db.heap.length db.rulers = none :=
    replaceFirstRuler_eq_none _ _ _ _ hr
  have hrem : removeFirstRuler db.heap id db.rulers = none :=
    removeFirstRuler_eq_none _ _ _ hr
  have hcfind : getCastleById cdb xid = none := by
    apply List.find?_eq_none.mpr
    intro c hcmem
    simp only [beq_iff_eq]
    exact hc c hcmem
  have hcrem : removeFirstCastle xid cdb.castles = none :=
    removeFirstCastle_eq_none _ _ hc
  refine ⟨?_, ?_, ?_, ?_, ?_, hcfind, ?_, ?_, ?_⟩
  · simp [getRulerById, hfind]
  · simp [updateRuler, hrep]
  · simp [deleteRuler, hrem]
  · simp [addCastleToRuler, hfind]
  · simp [removeCastleFromRuler, hfind]
  · simp [deleteCastle, hcrem]
  · simp [resolveGetRuler, getRulerById, hfind]
  · simp [restGetCastle, hcfind]

/-- C6 (witness): on the default ruler store and a one-castle store, the
identifier "missing-id" is absent and every operation signals absence as
stated. -/
theorem absent_id_store_signals_witness :
    (∀ r ∈ getAllRulers defaultRulerDB, r.id ≠ "missing-id") ∧
    (∀ c ∈ getAllCastles ⟨[⟨"castle-1", "Chambord", "Loire", 1519, "a castle"⟩],
        [⟨"castle-1", "Chambord", "Loire", 1519, "a castle"⟩]⟩, c.id ≠ "missing-id") ∧
    (getRulerById defaultRulerDB "missing-id" = none ∧
     updateRuler defaultRulerDB "missing-id"
        ⟨none, none, none, none, none, some "X", none⟩ = (none, defaultRulerDB) ∧
     deleteRuler defaultRulerDB "missing-id" = (false, defaultRulerDB) ∧
     addCastleToRuler defaultRulerDB "missing-id" "c1" = (none, defaultRulerDB) ∧
     removeCastleFromRuler defaultRulerDB "missing-id" "c1" = (none, defaultRulerDB) ∧
     getCastleById ⟨[⟨"castle-1", "Chambord", "Loire", 1519, "a castle"⟩],
        [⟨"castle-1", "Chambord", "Loire", 1519, "a castle"⟩]⟩ "missing-id" = none ∧
     deleteCastle ⟨[⟨"castle-1", "Chambord", "Loire", 1519, "a castle"⟩],
        [⟨"castle-1", "Chambord", "Loire", 1519, "a castle"⟩]⟩ "missing-id" =
        (false, ⟨[⟨"castle-1", "Chambord", "Loire", 1519, "a castle"⟩],
          [⟨"castle-1", "Chambord", "Loire", 1519, "a castle"⟩]⟩) ∧
     resolveGetRuler defaultRulerDB "missing-id" =
        Except.error ("Ruler with ID " ++ "missing-id" ++ " not found") ∧
     restGetCastle ⟨[⟨"castle-1", "Chambord", "Loire", 1519, "a castle"⟩],
        [⟨"castle-1", "Chambord", "Loire", 1519, "a castle"⟩]⟩ "missing-id" =
        Except.error ⟨"not_found", "Castle not found"⟩) :=
  ⟨by decide, by decide,
    absent_id_store_signals defaultRulerDB
      ⟨[⟨"castle-1", "Chambord", "Loire", 1519, "a castle"⟩],
        [⟨"castle-1", "Chambord", "Loire", 1519, "a castle"⟩]⟩
      "missing-id" "c1" "missing-id" ⟨none, none, none, none, none, some "X", none⟩
      (by decide) (by decide)⟩

/-- C3 (counterexample): against the default ruler dataset,
`getRulersByPeriod(1600, 1700)` DOES include the ruler reigning
1589–1610 (Henry IV): the inclusive overlap test accepts him because
1589 ≤ 1700 and 1610 ≥ 1600. -/
theorem period_1600_1700_includes_henryIV :
    henryIV ∈ getRulersByPeriod defaultRulerDB 2025 1600 1700 := by decide

/-- C3 (amended): against the default ruler dataset, `getRulersByPeriod
(1600, 1700)` returns all three rulers — the one reigning 1643–1715, the
one reigning 1610–1643, and also the one reigning 1589–1610 — for every
current year `now`. -/
theorem period_1600_1700_default_result (now : Int) :
    getRulersByPeriod defaultRulerDB now 1600 1700 = [louisXIV, louisXIII, henryIV] := by
  rfl

/-- C4 (counterexample): `getAllCastlesWithRulers` raises when the rulers
API URL is not configured, even when every sub-query would succeed. -/
theorem getAllCastlesWithRulers_throws_without_url :
    getAllCastlesWithRulers none (Except.ok []) (fun _ => Except.ok []) =
      Except.error "Rulers API URL not configured. Cannot fetch ruler data." := rfl

/-- C4 (amended): when the rulers API URL is configured and the castle
listing itself succeeds, `getAllCastlesWithRulers` never raises, returns
one entry per castle in order with the castle's fields preserved, and a
castle whose ruler sub-query fails is kept with an empty `rulers` list
(a succeeding sub-query's rulers are passed through). -/
theorem getAllCastlesWithRulers_best_effort (url : String)
    (castles : List ClientCastle) (fetch : String → Except String (List Ruler)) :
    ∃ result : List CastleWithRulers,
      getAllCastlesWithRulers (some url) (Except.ok castles) fetch = Except.ok result ∧
      result.length = castles.length ∧
      ∀ (i : Nat) (c : ClientCastle), castles[i]? = some c →
        ∃ entry : CastleWithRulers, result[i]? = some entry ∧
        entry.id = c.id ∧ entry.name = c.name ∧ entry.region = c.region ∧
        entry.yearBuilt = c.yearBuilt ∧
        (∀ msg, fetch c.id = Except.error msg → entry.rulers = []) ∧
        (∀ rs, fetch c.id = Except.ok rs → entry.rulers = rs) := by
  refine ⟨castles.map (joinCastle fetch), rfl, by simp, ?_⟩
  intro i c hc
  refine ⟨joinCastle fetch c, by simp [List.getElem?_map, hc], ?_⟩
  rcases hf : fetch c.id with msg | rs <;> simp [joinCastle, hf]

/-- C8: a `POST /castles` whose `yearBuilt` lies outside 1000–2100 is
rejected by the validation layer with error kind `validation_error`, and
the store is left unchanged: the mutation never reaches `createCastle`. -/
theorem postCastles_rejects_out_of_range_year (db : CastleDB) (newId : String)
    (p : CastlePayload) (y : Int) (hy : p.yearBuilt = some y)
    (hr : y < 1000 ∨ y > 2100) :
    ∃ e, (postCastles db newId p).1 = Except.error e ∧
      e.error = "validation_error" ∧ (postCastles db newId p).2 = db := by
  rcases hv : validateCreateCastle p with e | req
  · exact ⟨e, by simp [postCastles, hv], validateCreateCastle_error_kind p e hv,
      by simp [postCastles, hv]⟩
  · exfalso
    rcases validateCreateCastle_ok_year p req hv with ⟨hy2, h1, h2⟩
    rw [hy] at hy2
    injection hy2 with h3
    omega

/-- C8 (witness): the concrete request of the spec, `yearBuilt = 500` with
valid name and region, is rejected with kind `validation_error` and the
(empty) store is unchanged. -/
theorem postCastles_rejects_out_of_range_year_witness :
    (⟨some "Test Castle", some "Brittany", some 500, none⟩ : CastlePayload).yearBuilt
        = some 500 ∧
    ((500 : Int) < 1000 ∨ (500 : Int) > 2100) ∧
    ∃ e, (postCastles ⟨[], []⟩ "castle_1"
            ⟨some "Test Castle", some "Brittany", some 500, none⟩).1 = Except.error e ∧
      e.error = "validation_error" ∧
      (postCastles ⟨[], []⟩ "castle_1"
        ⟨some "Test Castle", some "Brittany", some 500, none⟩).2 = ⟨[], []⟩ :=
  ⟨rfl, by decide,
    postCastles_rejects_out_of_range_year ⟨[], []⟩ "castle_1"
      ⟨some "Test Castle", some "Brittany", some 500, none⟩ 500 rfl (by decide)⟩

/-- C9: `getOldestCastles(limit)` is the stable ascending sort of the
castle collection by `yearBuilt`, truncated to `limit` entries: the result
is the `limit`-prefix of a sorted permutation of the collection, its
length is `min limit n`, and castles of equal `yearBuilt` keep their
original store order (the sort preserves every equal-year fiber). -/
theorem getOldestCastles_sorted_stable (castles : List ClientCastle) (limit : Nat) :
    getOldestCastles castles limit = (sortByYearBuilt castles).take limit ∧
    List.Sorted yearLe (getOldestCastles castles limit) ∧
    (sortByYearBuilt castles).Perm castles ∧
    (getOldestCastles castles limit).length = min limit castles.length ∧
    ∀ k : Int, (sortByYearBuilt castles).filter (fun c => decide (c.yearBuilt = k)) =
      castles.filter (fun c => decide (c.yearBuilt = k)) := by
  refine ⟨rfl, ?_, List.perm_insertionSort yearLe castles, ?_,
    fun k => filter_sortByYearBuilt k castles⟩
  · exact List.Pairwise.sublist (List.take_sublist _ _)
      (List.sorted_insertionSort yearLe castles)
  · have hlen : (sortByYearBuilt castles).length = castles.length :=
      (List.perm_insertionSort yearLe castles).length_eq
    simp [getOldestCastles, List.length_take, hlen]

/-- C10: `createCastle` applies the placeholder description
"A beautiful castle" both when the description is omitted and when it is
the empty string (JS falsiness of `""`), so every created castle has a
non-empty description. -/
theorem createCastle_description_never_empty (db : CastleDB) (newId : String)
    (req : CreateCastleRequest) :
    ((req.description = none ∨ req.description = some "") →
      (createCastle db newId req).1.description = "A beautiful castle") ∧
    (createCastle db newId req).1.description ≠ "" := by
  constructor
  · rintro (h | h) <;> simp [createCastle, h]
  · rcases hd : req.description with _ | s
    · simp [createCastle, hd]
    · by_cases hs : s = "" <;> simp [createCastle, hd, hs]

/-- C5: `updateRuler` on an existing ruler returns a ruler whose
`castleIds` equals the ruler's `castleIds` before the call, and the stored
record looked up afterwards is that same merged record — `castleIds` is
never mutated by update, whatever subset of fields the payload carries. -/
theorem updateRuler_preserves_castleIds (db : RulerDB) (id : String)
    (u : UpdateRulerRequest) (r : Ruler) (h : getRulerById db id = some r) :
    ∃ r' db', updateRuler db id u = (some r', db') ∧
      r'.castleIds = r.castleIds ∧ getRulerById db' id = some r' := by
  rcases hf : findAddr db.heap id db.rulers with _ | p
  · rw [getRulerById, hf] at h
    exact absurd h (by simp)
  · rw [getRulerById, hf] at h
    simp only [Option.map_some'] at h
    injection h with h2
    obtain ⟨a, r0⟩ := p
    simp only at h2
    subst h2
    obtain ⟨hheap, hid⟩ := findAddr_sound _ _ _ _ _ hf
    obtain ⟨l', hrep⟩ := findAddr_replaceFirst db.heap id db.heap.length _ _ _ hf
    have hid' : ((applyUpdate r0 u).id == id) = true := hid
    have hfind' := findAddr_after_replace db.heap id db.rulers l' r0
      (applyUpdate r0 u) hrep hid'
    refine ⟨applyUpdate r0 u,
      ⟨db.heap ++ [applyUpdate r0 u], l', db.sourceRulers⟩, ?_, rfl, ?_⟩
    · simp [updateRuler, hrep]
    · simp [getRulerById, hfind']

/-- C5 (witness): updating only the description of a ruler that owns two
castles leaves both the returned and the stored `castleIds` intact. -/
theorem updateRuler_preserves_castleIds_witness :
    getRulerById (setRulers emptyRulerDB
        [⟨"rx", "Rex", "King", 1500, some 1550, "HouseX", ["c1", "c2"], some "d", []⟩])
        "rx" =
      some ⟨"rx", "Rex", "King", 1500, some 1550, "HouseX", ["c1", "c2"], some "d", []⟩ ∧
    ∃ r' db', updateRuler (setRulers emptyRulerDB
        [⟨"rx", "Rex", "King", 1500, some 1550, "HouseX", ["c1", "c2"], some "d", []⟩])
        "rx" ⟨none, none, none, none, none, some "X", none⟩ = (some r', db') ∧
      r'.castleIds =
        (⟨"rx", "Rex", "King", 1500, some 1550, "HouseX", ["c1", "c2"], some "d", []⟩ :
          Ruler).castleIds ∧
      getRulerById db' "rx" = some r' :=
  ⟨by decide, updateRuler_preserves_castleIds _ _ _ _ (by decide)⟩

/-! ## Lemmas for the idempotence of addCastleToRuler -/

lemma findAddr_set_found (heap : List Ruler) (id : String) (l : List Nat)
    (a : Nat) (r r2 : Ruler) (h : findAddr heap id l = some (a, r))
    (hid : (r2.id == id) = true) :
    findAddr (heap.set a r2) id l = some (a, r2) := by
  obtain ⟨hheap, hrid⟩ := findAddr_sound _ _ _ _ _ h
  rcases List.getElem?_eq_some.mp hheap with ⟨halt, _⟩
  induction l with
  | nil => exact absurd h (by simp [findAddr])
  | cons b rest ih =>
    cases hb : heap[b]? with
    | none =>
      simp only [findAddr, hb] at h
      have hba : b ≠ a := fun he => by
        rw [he, hheap] at hb
        exact Option.noConfusion hb
      have hb2 : (heap.set a r2)[b]? = heap[b]? := List.getElem?_set_ne (Ne.symm hba)
      simp only [findAddr, hb2, hb]
      exact ih h
    | some s =>
      simp only [findAddr, hb] at h
      by_cases hs : (s.id == id) = true
      · rw [if_pos hs] at h
        injection h with h2
        have hba : b = a := congrArg Prod.fst h2
        subst hba
        have hb2 : (heap.set b r2)[b]? = some r2 := List.getElem?_set_self halt
        simp [findAddr, hb2, hid]
      · rw [if_neg hs] at h
        have hba : b ≠ a := by
          intro he
          rw [he, hheap] at hb
          injection hb with hsr
          rw [hsr] at hrid
          exact hs hrid
        have hb2 : (heap.set a r2)[b]? = heap[b]? := List.getElem?_set_ne (Ne.symm hba)
        simp only [findAddr, hb2, hb]
        rw [if_neg hs]
        exact ih h

/-- C7 (counterexample): "contains c exactly once" fails when a fixture
ruler already carries a duplicated castle id: with `castleIds = ["c1","c1"]`
installed via `setRulers`, two `addCastleToRuler` calls are no-ops and the
resulting `castleIds` still contains "c1" twice, not exactly once. -/
theorem addCastleToRuler_twice_duplicate_fixture :
    (addCastleToRuler (addCastleToRuler (setRulers emptyRulerDB
        [⟨"rd", "Dup", "King", 1400, none, "HouseD", ["c1", "c1"], none, []⟩])
        "rd" "c1").2 "rd" "c1").1.map (fun r => r.castleIds.count "c1") = some 2 ∧
    (addCastleToRuler (addCastleToRuler (setRulers emptyRulerDB
        [⟨"rd", "Dup", "King", 1400, none, "HouseD", ["c1", "c1"], none, []⟩])
        "rd" "c1").2 "rd" "c1").1.map (fun r => r.castleIds.count "c1") ≠ some 1 := by
  constructor <;> decide

/-- C7 (amended): for every ruler present in the store, the second of two
successive `addCastleToRuler` calls is unconditionally the identity — it
returns exactly the ruler and store state produced by the first call; and
whenever the ruler's `castleIds` did not already hold a duplicate of `c`
(count ≤ 1), the resulting `castleIds` contains `c` exactly once. -/
theorem addCastleToRuler_idempotent (db : RulerDB) (id c : String) (r : Ruler)
    (h : getRulerById db id = some r) :
    ∃ r1 db1, addCastleToRuler db id c = (some r1, db1) ∧
      addCastleToRuler db1 id c = (some r1, db1) ∧
      (r.castleIds.count c ≤ 1 → r1.castleIds.count c = 1) := by
  rcases hf : findAddr db.heap id db.rulers with _ | p
  · rw [getRulerById, hf] at h
    exact absurd h (by simp)
  · obtain ⟨a, r0⟩ := p
    rw [getRulerById, hf] at h
    simp only [Option.map_some'] at h
    injection h with h2
    subst h2
    obtain ⟨hheap, hid⟩ := findAddr_sound _ _ _ _ _ hf
    by_cases hc : r0.castleIds.contains c
    · have hmem : c ∈ r0.castleIds := List.elem_iff.mp hc
      refine ⟨r0, db, ?_, ?_, ?_⟩
      · simp [addCastleToRuler, hf, hc, hmem]
      · simp [addCastleToRuler, hf, hc, hmem]
      · intro hcount
        exact le_antisymm hcount (List.one_le_count_iff.mpr hmem)
    · have hmem : c ∉ r0.castleIds := fun hm => hc (List.elem_iff.mpr hm)
      have hzero : r0.castleIds.count c = 0 := List.count_eq_zero.mpr hmem
      refine ⟨{ r0 with castleIds := r0.castleIds ++ [c] },
        { db with heap := db.heap.set a { r0 with castleIds := r0.castleIds ++ [c] } },
        ?_, ?_, ?_⟩
      · simp [addCastleToRuler, hf, hc, hmem]
      · have hid1 : (({ r0 with castleIds := r0.castleIds ++ [c] } : Ruler).id == id)
            = true := hid
        have hfind1 := findAddr_set_found db.heap id db.rulers a r0
          { r0 with castleIds := r0.castleIds ++ [c] } hf hid1
        have hmem1 : ({ r0 with castleIds := r0.castleIds ++ [c] } :
            Ruler).castleIds.contains c := by
          simp
        simp [addCastleToRuler, hfind1, hmem1]
      · intro _
        simp [List.count_append, hzero]

/-- C7 (witness): a ruler holding one unrelated castle gets "c7" added
exactly once, the second call being the identity. -/
theorem addCastleToRuler_idempotent_witness :
    getRulerById (setRulers emptyRulerDB
        [⟨"ry", "Yor", "Queen", 1300, some 1333, "HouseY", ["c1"], none, []⟩]) "ry" =
      some (⟨"ry", "Yor", "Queen", 1300, some 1333, "HouseY", ["c1"], none, []⟩ : Ruler) ∧
    ∃ r1 db1, addCastleToRuler (setRulers emptyRulerDB
        [⟨"ry", "Yor", "Queen", 1300, some 1333, "HouseY", ["c1"], none, []⟩])
        "ry" "c7" = (some r1, db1) ∧
      addCastleToRuler db1 "ry" "c7" = (some r1, db1) ∧
      ((⟨"ry", "Yor", "Queen", 1300, some 1333, "HouseY", ["c1"], none, []⟩ :
          Ruler).castleIds.count "c7" ≤ 1 → r1.castleIds.count "c7" = 1) :=
  ⟨by decide,
    addCastleToRuler_idempotent _ _ _
      (⟨"ry", "Yor", "Queen", 1300, some 1333, "HouseY", ["c1"], none, []⟩ : Ruler)
      (by decide)⟩


/-! ## Lemmas for the fixture reset protocol -/

lemma applyCOp_sourceCastles (db : CastleDB) (op : COp) :
    (applyCOp db op).sourceCastles = db.sourceCastles := by
  cases op with
  | create newId req => rfl
  | delete id =>
    simp only [applyCOp, deleteCastle]
    rcases h : removeFirstCastle id db.castles with _ | rest <;> simp

lemma applyCOps_sourceCastles (ops : List COp) (db : CastleDB) :
    (applyCOps db ops).sourceCastles = db.sourceCastles := by
  induction ops generalizing db with
  | nil => rfl
  | cons op rest ih =>
    show (applyCOps (applyCOp db op) rest).sourceCastles = db.sourceCastles
    rw [ih, applyCOp_sourceCastles]

/-- Heap extension: every object the first heap holds is held unchanged at
the same address by the second. -/
def HeapExtends (h1 h2 : List Ruler) : Prop :=
  ∀ (a : Nat) (r : Ruler), h1[a]? = some r → h2[a]? = some r

lemma heapExtends_self (h : List Ruler) : HeapExtends h h := fun _ _ hh => hh

lemma heapExtends_append (h : List Ruler) (l : List Ruler) :
    HeapExtends h (h ++ l) := by
  intro a r ha
  rcases List.getElem?_eq_some.mp ha with ⟨hlt, _⟩
  rw [List.getElem?_append_left hlt]
  exact ha

lemma heapExtends_trans {h1 h2 h3 : List Ruler} (hab : HeapExtends h1 h2)
    (hbc : HeapExtends h2 h3) : HeapExtends h1 h3 :=
  fun a r h => hbc a r (hab a r h)

lemma applyROp_sourceRulers (db : RulerDB) (op : ROp) :
    (applyROp db op).sourceRulers = db.sourceRulers := by
  cases op with
  | create newId req => rfl
  | update id u =>
    simp only [applyROp, updateRuler]
    rcases h : replaceFirstRuler db.heap id db.heap.length db.rulers with _ | p <;>
      simp [h]
  | delete id =>
    simp only [applyROp, deleteRuler]
    rcases h : removeFirstRuler db.heap id db.rulers with _ | rest <;> simp [h]
  | addCastle rid cid =>
    simp only [applyROp, addCastleToRuler]
    rcases h : findAddr db.heap rid db.rulers with _ | p
    · simp [h]
    · obtain ⟨a, r⟩ := p
      simp only [h]
      split <;> rfl
  | removeCastle rid cid =>
    simp only [applyROp, removeCastleFromRuler]
    rcases h : findAddr db.heap rid db.rulers with _ | p
    · simp [h]
    · obtain ⟨a, r⟩ := p
      simp only [h]
      split <;> rfl

lemma applyROp_heapExtends (db : RulerDB) (op : ROp) (hop : op.isPlain = true) :
    HeapExtends db.heap (applyROp db op).heap := by
  cases op with
  | create newId req => exact heapExtends_append _ _
  | update id u =>
    simp only [applyROp, updateRuler]
    rcases h : replaceFirstRuler db.heap id db.heap.length db.rulers with _ | p
    · simp only [h]
      exact heapExtends_self _
    · simp only [h]
      exact heapExtends_append _ _
  | delete id =>
    simp only [applyROp, deleteRuler]
    rcases h : removeFirstRuler db.heap id db.rulers with _ | rest <;>
      simp only [h] <;> exact heapExtends_self _
  | addCastle rid cid => simp [ROp.isPlain] at hop
  | removeCastle rid cid => simp [ROp.isPlain] at hop

lemma applyROps_inv (ops : List ROp) (db : RulerDB)
    (h : ∀ op ∈ ops, op.isPlain = true) :
    (applyROps db ops).sourceRulers = db.sourceRulers ∧
    HeapExtends db.heap (applyROps db ops).heap := by
  induction ops generalizing db with
  | nil => exact ⟨rfl, heapExtends_self _⟩
  | cons op rest ih =>
    have hop := h op (List.mem_cons_self _ _)
    have hrest := ih (applyROp db op) (fun o ho => h o (List.mem_cons_of_mem _ ho))
    constructor
    · show (applyROps (applyROp db op) rest).sourceRulers = db.sourceRulers
      rw [hrest.1, applyROp_sourceRulers]
    · exact heapExtends_trans (applyROp_heapExtends db op hop) hrest.2

lemma filterMap_getElem_range (data : List Ruler) (base : Nat) (h2 : List Ruler)
    (hext : ∀ (i : Nat) (r : Ruler), data[i]? = some r → h2[i + base]? = some r) :
    ((List.range data.length).map (fun i => i + base)).filterMap
      (fun a => h2[a]?) = data := by
  induction data generalizing base with
  | nil => rfl
  | cons d ds ih =>
    have hbase : h2[base]? = some d := by
      have h0 := hext 0 d (by simp)
      simpa using h0
    have hmap : (List.range (d :: ds).length).map (fun i => i + base) =
        base :: (List.range ds.length).map (fun i => i + (base + 1)) := by
      rw [List.length_cons, List.range_succ_eq_map, List.map_cons, List.map_map]
      congr 1
      · exact Nat.zero_add base
      · apply List.map_congr_left
        intro i _
        simp only [Function.comp_apply]
        omega
    rw [hmap, List.filterMap_cons, hbase]
    have hext2 : ∀ (i : Nat) (r : Ruler), ds[i]? = some r →
        h2[i + (base + 1)]? = some r := by
      intro i r hir
      have hh := hext (i + 1) r (by simpa using hir)
      have harith : i + 1 + base = i + (base + 1) := by omega
      rwa [harith] at hh
    rw [ih (base + 1) hext2]

lemma setRulers_heap_at (db : RulerDB) (data : List Ruler) (i : Nat) (r : Ruler)
    (h : data[i]? = some r) :
    (setRulers db data).heap[i + db.heap.length]? = some r := by
  simp only [setRulers]
  rw [List.getElem?_append_right (by omega : db.heap.length ≤ i + db.heap.length)]
  simpa using h

/-- C1 (counterexample): after `set([r])` with `r.castleIds = []`, a single
`addCastleToRuler` followed by `reset()` does NOT restore `list()` to the
snapshot: the relation mutation wrote through the ruler object that the
shallow-copied source collection shares, so the castleIds change survives
the reset. -/
theorem reset_after_addCastle_differs :
    getAllRulers (resetRulers (applyROps (setRulers emptyRulerDB
        [⟨"r1", "Ruler One", "King", 1600, some 1650, "HouseA", [], none, []⟩])
        [ROp.addCastle "r1" "c1"])) ≠
      [⟨"r1", "Ruler One", "King", 1600, some 1650, "HouseA", [], none, []⟩] := by
  decide

/-- C1 (amended): after `set(records)` followed by any finite sequence of
create/update/delete operations (no `addCastleToRuler` /
`removeCastleFromRuler`), a single `reset()` restores `list()` to exactly
the records passed to `set()` — same elements, values and order — for both
stores; for the CastleStore this covers its whole mutation surface. -/
theorem reset_restores_set_snapshot (cdb : CastleDB) (cdata : List Castle)
    (cops : List COp) (rdb : RulerDB) (rdata : List Ruler) (rops : List ROp)
    (h : ∀ op ∈ rops, op.isPlain = true) :
    getAllCastles (resetCastles (applyCOps (setCastles cdb cdata) cops)) = cdata ∧
    getAllRulers (resetRulers (applyROps (setRulers rdb rdata) rops)) = rdata := by
  constructor
  · show (applyCOps (setCastles cdb cdata) cops).sourceCastles = cdata
    rw [applyCOps_sourceCastles]
    rfl
  · obtain ⟨hsrc, hext⟩ := applyROps_inv rops (setRulers rdb rdata) h
    show (applyROps (setRulers rdb rdata) rops).sourceRulers.filterMap
        (fun a => (applyROps (setRulers rdb rdata) rops).heap[a]?) = rdata
    rw [hsrc]
    show ((List.range rdata.length).map (fun i => i + rdb.heap.length)).filterMap
        (fun a => (applyROps (setRulers rdb rdata) rops).heap[a]?) = rdata
    apply filterMap_getElem_range
    intro i r hir
    exact hext _ _ (setRulers_heap_at rdb rdata i r hir)

/-- C1 (witness): a concrete run — castle create/delete and ruler
update/delete between `set` and `reset` — restores both snapshots. -/
theorem reset_restores_set_snapshot_witness :
    (∀ op ∈ [ROp.update "rw1" ⟨some "N", none, none, none, none, none, none⟩,
        ROp.delete "rw1",
        ROp.create "rw2" ⟨"New", "Count", 1700, none, "HouseN", none, none, none⟩],
      op.isPlain = true) ∧
    (getAllCastles (resetCastles (applyCOps (setCastles ⟨[], []⟩
        [⟨"cw1", "Castle W", "West", 1200, "w"⟩])
        [COp.create "cw2" ⟨"Castle X", "East", 1300, none⟩, COp.delete "cw1"])) =
      [⟨"cw1", "Castle W", "West", 1200, "w"⟩] ∧
    getAllRulers (resetRulers (applyROps (setRulers emptyRulerDB
        [⟨"rw1", "Ruler W", "King", 1100, some 1150, "HouseW", ["cw1"], none, []⟩])
        [ROp.update "rw1" ⟨some "N", none, none, none, none, none, none⟩,
         ROp.delete "rw1",
         ROp.create "rw2" ⟨"New", "Count", 1700, none, "HouseN", none, none, none⟩])) =
      [⟨"rw1", "Ruler W", "King", 1100, some 1150, "HouseW", ["cw1"], none, []⟩]) :=
  ⟨by decide,
    reset_restores_set_snapshot ⟨[], []⟩
      [⟨"cw1", "Castle W", "West", 1200, "w"⟩]
      [COp.create "cw2" ⟨"Castle X", "East", 1300, none⟩, COp.delete "cw1"]
      emptyRulerDB
      [⟨"rw1", "Ruler W", "King", 1100, some 1150, "HouseW", ["cw1"], none, []⟩]
      [ROp.update "rw1" ⟨some "N", none, none, none, none, none, none⟩,
       ROp.delete "rw1",
       ROp.create "rw2" ⟨"New", "Count", 1700, none, "HouseN", none, none, none⟩]
      (by decide)⟩

/-- C2 (counterexample): `addCastleToRuler` changes a record reachable from
the source collection: the mutated ruler object is the very object the
shallow-copied source array still references. -/
theorem addCastle_mutates_source_records :
    sourceRulerRecords (applyROps (setRulers emptyRulerDB
        [⟨"r2", "Ruler Two", "Duke", 1500, none, "HouseB", [], none, []⟩])
        [ROp.addCastle "r2" "c9"]) ≠
      [⟨"r2", "Ruler Two", "Duke", 1500, none, "HouseB", [], none, []⟩] := by
  decide

/-- C2 (amended): the create/update/delete mutations leave every record
reachable from the source (fixture) collection unchanged, for both stores
(for the CastleStore this is its whole mutation surface); the two relation
mutations `addCastleToRuler` / `removeCastleFromRuler`, however, write the
found ruler object in place and that object is shared with the source
collection. -/
theorem plain_mutations_leave_source_alone (cdb : CastleDB) (cdata : List Castle)
    (cops : List COp) (rdb : RulerDB) (rdata : List Ruler) (rops : List ROp)
    (h : ∀ op ∈ rops, op.isPlain = true) :
    (applyCOps (setCastles cdb cdata) cops).sourceCastles = cdata ∧
    sourceRulerRecords (applyROps (setRulers rdb rdata) rops) = rdata := by
  constructor
  · rw [applyCOps_sourceCastles]
    rfl
  · obtain ⟨hsrc, hext⟩ := applyROps_inv rops (setRulers rdb rdata) h
    show (applyROps (setRulers rdb rdata) rops).sourceRulers.filterMap
        (fun a => (applyROps (setRulers rdb rdata) rops).heap[a]?) = rdata
    rw [hsrc]
    show ((List.range rdata.length).map (fun i => i + rdb.heap.length)).filterMap
        (fun a => (applyROps (setRulers rdb rdata) rops).heap[a]?) = rdata
    apply filterMap_getElem_range
    intro i r hir
    exact hext _ _ (setRulers_heap_at rdb rdata i r hir)

/-- C2 (witness): a concrete create/update/delete run leaves both source
collections exactly as loaded. -/
theorem plain_mutations_leave_source_alone_witness :
    (∀ op ∈ [ROp.create "rv2" ⟨"V2", "Earl", 1800, none, "HouseV", none, none, none⟩,
        ROp.update "rv1" ⟨none, none, none, some 1460, none, none, none⟩],
      op.isPlain = true) ∧
    ((applyCOps (setCastles ⟨[], []⟩ [⟨"cv1", "Castle V", "South", 1400, "v"⟩])
        [COp.delete "cv1"]).sourceCastles =
      [⟨"cv1", "Castle V", "South", 1400, "v"⟩] ∧
    sourceRulerRecords (applyROps (setRulers emptyRulerDB
        [⟨"rv1", "Ruler V", "King", 1440, some 1450, "HouseV", ["cv1"], none, []⟩])
        [ROp.create "rv2" ⟨"V2", "Earl", 1800, none, "HouseV", none, none, none⟩,
         ROp.update "rv1" ⟨none, none, none, some 1460, none, none, none⟩]) =
      [⟨"rv1", "Ruler V", "King", 1440, some 1450, "HouseV", ["cv1"], none, []⟩]) :=
  ⟨by decide,
    plain_mutations_leave_source_alone ⟨[], []⟩
      [⟨"cv1", "Castle V", "South", 1400, "v"⟩] [COp.delete "cv1"]
      emptyRulerDB
      [⟨"rv1", "Ruler V", "King", 1440, some 1450, "HouseV", ["cv1"], none, []⟩]
      [ROp.create "rv2" ⟨"V2", "Earl", 1800, none, "HouseV", none, none, none⟩,
       ROp.update "rv1" ⟨none, none, none, some 1460, none, none, none⟩]
      (by decide)⟩

end Entente
